import Mathlib

/-!
Formal model of the Distributed_Bank repository.

The model is a shallow embedding of the C++ sources:

* `src/client_cpp/src/protocol.cpp` — the wire codec (big-endian field writers and
  readers, `encode`, `decode`).  Bytes are modelled as `Nat` values; every writer
  masks with `% 256` exactly where the C++ masks with `& 0xFF` or relies on a
  `uint8_t` conversion.  A C++ `double` appears on the wire only through its
  64-bit pattern (`memcpy` into a `uint64_t`, which yields the IEEE-754 bit
  pattern of the value on any host), so the wire-level model carries the bit
  pattern as a `Nat`.
* `src/client_cpp/src/client.cpp` — the retry loop of `Client::call`.
* `src/z_server_cpp/src/bank.cpp` — the ledger.  Balances and amounts are
  modelled as exact rationals (every finite `double` is a rational and the
  comparisons `<`, `>` on doubles are exact comparisons of the represented
  values); the rounding that `double` addition and subtraction perform is
  modelled separately by `fadd64`/`fsub64` (round to nearest, ties to even, at
  53 significant bits) and studied for the transfer-conservation property.
* `src/z_server_cpp/src/main.cpp` — the dispatcher loop: decode, version and
  message-type screening, the deduplication cache with its 60 s TTL, reply
  construction and the reply-loss draw.  The business dispatch (lines 181-343)
  is a parameter `handle` of the step function, matching §4.2 of the spec which
  treats the transaction processor as an external component; the concrete
  dispatch to the `Bank` operations is modelled at the value level by
  `handleBankReq`.  The monitor registry and callback fan-out touch neither the
  bank state nor the reply path and are outside the model.
-/

/-! ## Wire codec: big-endian writers (protocol.cpp, putBE16/putBE32/putBE64) -/

/-- The protocol magic constant 0x42414E4B ("BANK"), protocol.hpp. -/
def MAGICN : Nat := 0x42414E4B

/-- The two big-endian bytes of a `uint16_t` value, as `putBE16` emits them. -/
def beBytes16 (v : Nat) : List Nat := [v / 256 % 256, v % 256]

/-- The four big-endian bytes of a `uint32_t` value, as `putBE32` emits them. -/
def beBytes32 (v : Nat) : List Nat :=
  [v / 16777216 % 256, v / 65536 % 256, v / 256 % 256, v % 256]

/-- The eight big-endian bytes of a `uint64_t` value, as `putBE64` emits them. -/
def beBytes64 (v : Nat) : List Nat :=
  [v / 72057594037927936 % 256, v / 281474976710656 % 256, v / 1099511627776 % 256,
   v / 4294967296 % 256, v / 16777216 % 256, v / 65536 % 256, v / 256 % 256, v % 256]

/-- Model of `putU16` (protocol.cpp): append the two big-endian bytes of `v`. -/
def putU16b (b : List Nat) (v : Nat) : List Nat := b ++ beBytes16 v

/-- Model of `putU32` (protocol.cpp): append the four big-endian bytes of `v`. -/
def putU32b (b : List Nat) (v : Nat) : List Nat := b ++ beBytes32 v

/-- Model of `putU64` (protocol.cpp): append the eight big-endian bytes of `v`. -/
def putU64b (b : List Nat) (v : Nat) : List Nat := b ++ beBytes64 v

/-- Model of `putI32` (protocol.cpp): `putU32(b, uint32_t(v))`, i.e. the value modulo 2^32. -/
def putI32b (b : List Nat) (v : Int) : List Nat := putU32b b (v % 4294967296).toNat

/-- Model of `putDouble` (protocol.cpp lines 77-82): `memcpy` the 8 bytes of the double into a
`uint64_t` — which on any host reconstructs the IEEE-754 bit pattern of the value as an
integer — and emit that integer big-endian via `putU64`.  `bits` is the bit pattern. -/
def putDoubleB (b : List Nat) (bits : Nat) : List Nat := putU64b b bits

/-- Model of `putString` (protocol.cpp lines 84-88): strings longer than 65535 bytes are silently
dropped (the function returns without appending anything and without any error signal);
otherwise a 2-byte big-endian length prefix is appended, then the raw bytes.  `s` is the
string's byte sequence. -/
def putStringB (b : List Nat) (s : List Nat) : List Nat :=
  if s.length > 65535 then b else putU16b b s.length ++ s

/-- The in-memory byte image of a 64-bit pattern on a little-endian host
(least-significant byte first). -/
def leMemBytes64 (v : Nat) : List Nat :=
  [v % 256, v / 256 % 256, v / 65536 % 256, v / 16777216 % 256,
   v / 4294967296 % 256, v / 1099511627776 % 256, v / 281474976710656 % 256,
   v / 72057594037927936 % 256]

/-! ## Wire codec: message structure, encode, decode -/

/-- The decoded message: fixed header fields (protocol.hpp `Header`) plus the body bytes.
Field widths in C++ are `u32, u8, u8, u16, u16, u16, u64, u32`; `Msg.wfWidths` states the
corresponding bounds for the `Nat`-valued model. -/
structure Msg where
  magic : Nat
  version : Nat
  msgType : Nat
  opCode : Nat
  flags : Nat
  status : Nat
  requestId : Nat
  bodyLen : Nat
  body : List Nat
deriving DecidableEq, Repr

/-- The fields of `m` fit the integer widths of the C++ `Header` struct, and the body is
a byte vector of a length a `uint32_t` can describe. -/
def Msg.wfWidths (m : Msg) : Prop :=
  m.magic < 4294967296 ∧ m.version < 256 ∧ m.msgType < 256 ∧ m.opCode < 65536 ∧
  m.flags < 65536 ∧ m.status < 65536 ∧ m.requestId < 18446744073709551616 ∧
  m.body.length < 4294967296

instance (m : Msg) : Decidable m.wfWidths := by
  unfold Msg.wfWidths; infer_instance

/-- Model of `encode` (protocol.cpp lines 147-162): the 24 header bytes in order, then the body
verbatim.  `bodyLen` is emitted from the header field, which the callers set to the body
length but which `encode` itself does not recompute. -/
def encode (m : Msg) : List Nat :=
  beBytes32 m.magic ++ [m.version % 256, m.msgType % 256] ++ beBytes16 m.opCode ++
    beBytes16 m.flags ++ beBytes16 m.status ++ beBytes64 m.requestId ++
    beBytes32 m.bodyLen ++ m.body

/-- Byte `i` of a buffer (reads in `decode` are guarded by explicit length checks, so the
default value is never exercised on a successful path). -/
def byteAt (b : List Nat) (i : Nat) : Nat := b.getD i 0

/-- The big-endian `u16` value at offset `i`. -/
def u16at (b : List Nat) (i : Nat) : Nat := byteAt b i * 256 + byteAt b (i + 1)

/-- The big-endian `u32` value at offset `i`. -/
def u32at (b : List Nat) (i : Nat) : Nat :=
  byteAt b i * 16777216 + byteAt b (i + 1) * 65536 + byteAt b (i + 2) * 256 +
    byteAt b (i + 3)

/-- The big-endian `u64` value at offset `i`. -/
def u64at (b : List Nat) (i : Nat) : Nat :=
  u32at b i * 4294967296 + u32at b (i + 4)

/-- Model of `getU16` (protocol.cpp): fail if fewer than 2 bytes remain at `off`. -/
def getU16o (b : List Nat) (off : Nat) : Option Nat :=
  if off + 2 ≤ b.length then some (u16at b off) else none

/-- Model of `getU32` (protocol.cpp): fail if fewer than 4 bytes remain at `off`. -/
def getU32o (b : List Nat) (off : Nat) : Option Nat :=
  if off + 4 ≤ b.length then some (u32at b off) else none

/-- Model of `getU64` (protocol.cpp): fail if fewer than 8 bytes remain at `off`. -/
def getU64o (b : List Nat) (off : Nat) : Option Nat :=
  if off + 8 ≤ b.length then some (u64at b off) else none

/-- Model of `decode` (protocol.cpp lines 164-179), mirroring the source's sequence of reads at
offsets 0, 4, 5, 6, 8, 10, 12, 20: magic is read and compared, version and msgType are
read after a 2-byte bounds check, the remaining header fields are read, and finally the
body must hold at least `bodyLen` bytes (`off + bodyLen > raw.size()` rejects).  The
source compares neither `version` nor `msgType` here; trailing bytes beyond the declared
body are ignored. -/
def decode (raw : List Nat) : Option Msg :=
  match getU32o raw 0 with
  | none => none
  | some magic =>
    if magic ≠ MAGICN then none
    else if raw.length < 6 then none
    else
      match getU16o raw 6, getU16o raw 8, getU16o raw 10, getU64o raw 12, getU32o raw 20 with
      | some opCode, some flags, some status, some requestId, some bodyLen =>
        if raw.length < 24 + bodyLen then none
        else some { magic := magic, version := byteAt raw 4, msgType := byteAt raw 5,
                    opCode := opCode, flags := flags, status := status,
                    requestId := requestId, bodyLen := bodyLen,
                    body := (raw.drop 24).take bodyLen }
      | _, _, _, _, _ => none

/-! ## Client invoker: the retry loop of `Client::call` (client.cpp lines 75-168)

One `recvfrom` happens per attempt.  The model feeds the loop a list of receive events:
`tmo` is a receive timeout (or a transient socket error, which the source also answers
with `continue`), `pkt bs` is an arriving datagram.  An exhausted event list behaves as
perpetual timeouts.  Every attempt begins with a `sendto` of the encoded request, so the
first component of the result counts the datagrams sent; the second is the reply the
call returns, `none` when all `retryCount` attempts are used up. -/

/-- A receive event seen by one attempt of `Client::call`. -/
inductive CEvent where
  | tmo : CEvent
  | pkt : List Nat → CEvent
deriving DecidableEq, Repr

/-- The attempt loop of `Client::call`: `reqId` is the request id generated for this
call, the `Nat` argument is the number of attempts left (`retryCount` at the top call).
In the source every failure path inside an attempt — timeout, `decode` failure,
`msgType != Reply`, `requestId` mismatch — executes `continue` of the `for` loop over
attempts, so each of them ends the attempt and a fresh attempt (with its own `sendto`)
follows if any remain. -/
def callLoop (reqId : Nat) : Nat → List CEvent → Nat × Option Msg
  | 0, _ => (0, none)
  | r + 1, [] =>
    let p := callLoop reqId r []
    (p.1 + 1, p.2)
  | r + 1, CEvent.tmo :: rest =>
    let p := callLoop reqId r rest
    (p.1 + 1, p.2)
  | r + 1, CEvent.pkt bs :: rest =>
    match decode bs with
    | none =>
      let p := callLoop reqId r rest
      (p.1 + 1, p.2)
    | some m =>
      if m.msgType ≠ 2 then
        let p := callLoop reqId r rest
        (p.1 + 1, p.2)
      else if m.requestId ≠ reqId then
        let p := callLoop reqId r rest
        (p.1 + 1, p.2)
      else (1, some m)

/-! ## The ledger (bank.cpp)

Status codes are the `proto::Status` values of protocol.hpp. -/

def ST_OK : Nat := 0
def ST_BAD_REQUEST : Nat := 1
def ST_AUTH : Nat := 2
def ST_NOT_FOUND : Nat := 3
def ST_CURRENCY : Nat := 4
def ST_INSUFFICIENT : Nat := 5
def ST_PASSWORD_FORMAT : Nat := 6

/-- An account record (bank.hpp).  `currency` is the underlying `uint16_t` of the
`proto::Currency` enum (the dispatcher casts an arbitrary wire `u16` into it).
`balance` is the stored `double`, modelled as the exact rational it represents. -/
structure Account where
  accountNo : Int
  name : String
  password : String
  currency : Nat
  balance : ℚ
  closed : Bool
deriving DecidableEq

/-- The bank state (bank.hpp): the next account number to allocate (starts at 10001)
and the account map, modelled as an association list keyed by account number. -/
structure BankSt where
  nextAccNo : Int
  accounts : List (Int × Account)
deriving DecidableEq

/-- Model of `accounts_.find(accNo)`: the first record stored under `n`. -/
def findAcc : List (Int × Account) → Int → Option Account
  | [], _ => none
  | e :: t, n => if e.1 = n then some e.2 else findAcc t n

/-- Model of `accounts_[n] = a`: replace the record stored under `n`, or append a fresh one. -/
def putAccL : List (Int × Account) → Int → Account → List (Int × Account)
  | [], n, a => [(n, a)]
  | e :: t, n, a => if e.1 = n then (n, a) :: t else e :: putAccL t n a

/-- Model of `authMatch` (bank.cpp line 5): stored name and stored password must both match. -/
def authMatch (a : Account) (name pw : String) : Prop :=
  a.name = name ∧ a.password = pw

instance (a : Account) (name pw : String) : Decidable (authMatch a name pw) := by
  unfold authMatch; infer_instance

/-- Model of `Bank::openAccount` (bank.cpp lines 9-24): only a password of 0 or more than 16
bytes fails (ERR_PASSWORD_FORMAT); otherwise an account with exactly the requested
initial balance is created — the server applies no constraint to `initial` — and the
allocator advances. -/
def openAccount (b : BankSt) (name pw : String) (cur : Nat) (initial : ℚ) :
    BankSt × Except Nat (Int × ℚ) :=
  if pw.length = 0 ∨ pw.length > 16 then (b, Except.error ST_PASSWORD_FORMAT)
  else
    let a : Account := { accountNo := b.nextAccNo, name := name, password := pw,
                         currency := cur, balance := initial, closed := false }
    ({ nextAccNo := b.nextAccNo + 1, accounts := putAccL b.accounts b.nextAccNo a },
     Except.ok (b.nextAccNo, initial))

/-- Model of `Bank::closeAccount` (bank.cpp lines 26-34). -/
def closeAccount (b : BankSt) (name : String) (accNo : Int) (pw : String) :
    BankSt × Except Nat Unit :=
  match findAcc b.accounts accNo with
  | none => (b, Except.error ST_NOT_FOUND)
  | some a =>
    if a.closed then (b, Except.error ST_NOT_FOUND)
    else if ¬ authMatch a name pw then (b, Except.error ST_AUTH)
    else ({ b with accounts := putAccL b.accounts accNo { a with closed := true } },
          Except.ok ())

/-- Model of `Bank::deposit` (bank.cpp lines 36-48).  The balance update `a.balance += amount`
is modelled with exact rational addition; the claims proved about `deposit` concern
only its failure paths, where no arithmetic runs. -/
def deposit (b : BankSt) (name : String) (accNo : Int) (pw : String) (cur : Nat)
    (amount : ℚ) : BankSt × Except Nat ℚ :=
  match findAcc b.accounts accNo with
  | none => (b, Except.error ST_NOT_FOUND)
  | some a =>
    if a.closed then (b, Except.error ST_NOT_FOUND)
    else if ¬ authMatch a name pw then (b, Except.error ST_AUTH)
    else if a.currency ≠ cur then (b, Except.error ST_CURRENCY)
    else if ¬ (amount > 0) then (b, Except.error ST_BAD_REQUEST)
    else
      let nb := a.balance + amount
      ({ b with accounts := putAccL b.accounts accNo { a with balance := nb } },
       Except.ok nb)

/-- Model of `Bank::withdraw` (bank.cpp lines 50-63), with the same modelling of the balance
update as `deposit`. -/
def withdraw (b : BankSt) (name : String) (accNo : Int) (pw : String) (cur : Nat)
    (amount : ℚ) : BankSt × Except Nat ℚ :=
  match findAcc b.accounts accNo with
  | none => (b, Except.error ST_NOT_FOUND)
  | some a =>
    if a.closed then (b, Except.error ST_NOT_FOUND)
    else if ¬ authMatch a name pw then (b, Except.error ST_AUTH)
    else if a.currency ≠ cur then (b, Except.error ST_CURRENCY)
    else if ¬ (amount > 0) then (b, Except.error ST_BAD_REQUEST)
    else if a.balance < amount then (b, Except.error ST_INSUFFICIENT)
    else
      let nb := a.balance - amount
      ({ b with accounts := putAccL b.accounts accNo { a with balance := nb } },
       Except.ok nb)

/-- Model of `Bank::transfer` (bank.cpp lines 65-86), parametric in the subtraction and addition
used for the two balance updates: instantiated with exact rational `-`/`+` for the
state-change claims and with the binary64 roundings `fsub64`/`fadd64` to study what the
C++ `double` arithmetic does to the conservation property.  The comparisons
(`amount > 0.0`, `from.balance < amount`) are exact either way, as `double` comparison
compares represented values exactly. -/
def transferOps (sub add : ℚ → ℚ → ℚ) (b : BankSt) (name : String) (fromAccNo : Int)
    (pw : String) (toAccNo : Int) (cur : Nat) (amount : ℚ) :
    BankSt × Except Nat (ℚ × ℚ) :=
  if fromAccNo = toAccNo then (b, Except.error ST_BAD_REQUEST)
  else
    match findAcc b.accounts fromAccNo with
    | none => (b, Except.error ST_NOT_FOUND)
    | some af =>
      if af.closed then (b, Except.error ST_NOT_FOUND)
      else
        match findAcc b.accounts toAccNo with
        | none => (b, Except.error ST_NOT_FOUND)
        | some at' =>
          if at'.closed then (b, Except.error ST_NOT_FOUND)
          else if ¬ authMatch af name pw then (b, Except.error ST_AUTH)
          else if af.currency ≠ cur ∨ at'.currency ≠ cur then
            (b, Except.error ST_CURRENCY)
          else if ¬ (amount > 0) then (b, Except.error ST_BAD_REQUEST)
          else if af.balance < amount then (b, Except.error ST_INSUFFICIENT)
          else
            let nf := sub af.balance amount
            let nt := add at'.balance amount
            let acc1 := putAccL b.accounts fromAccNo { af with balance := nf }
            let acc2 := putAccL acc1 toAccNo { at' with balance := nt }
            ({ b with accounts := acc2 }, Except.ok (nf, nt))

/-- Model of `Bank::transfer` with exact rational balance updates. -/
def transferQ : BankSt → String → Int → String → Int → Nat → ℚ →
    BankSt × Except Nat (ℚ × ℚ) :=
  transferOps (fun x y => x - y) (fun x y => x + y)

/-- Model of `Bank::queryBalance` (bank.cpp lines 88-98). -/
def queryBalance (b : BankSt) (name : String) (accNo : Int) (pw : String) :
    BankSt × Except Nat (Nat × ℚ) :=
  match findAcc b.accounts accNo with
  | none => (b, Except.error ST_NOT_FOUND)
  | some a =>
    if a.closed then (b, Except.error ST_NOT_FOUND)
    else if ¬ authMatch a name pw then (b, Except.error ST_AUTH)
    else (b, Except.ok (a.currency, a.balance))

/-- An account number that behaves as absent through the request interface: either no
record is stored under it, or the stored record is closed.  Every bank operation guards
with `it == accounts_.end() || it->second.closed`. -/
def deadAcc (b : BankSt) (n : Int) : Bool :=
  match findAcc b.accounts n with
  | none => true
  | some a => a.closed

/-! ## Binary64 rounding (the arithmetic `double` performs)

IEEE-754 binary64 addition and subtraction compute the exact rational result and round
it to 53 significant bits, to nearest, ties to even.  `roundNE` implements exactly that
(with an unbounded exponent: overflow to infinity and subnormal flushing are outside the
range exercised here).  The normalisation loop is fuel-based to stay structurally
recursive; the fuel bound exceeds the number of doublings/halvings any rational with
numerator `n` and denominator `d` can need to reach the binade `[2^52, 2^53)`. -/

/-- Round a rational to the nearest integer, ties to even. -/
def rint (q : ℚ) : ℤ :=
  let f := ⌊q⌋
  let r := q - (f : ℚ)
  if r < 1 / 2 then f
  else if 1 / 2 < r then f + 1
  else if f % 2 = 0 then f else f + 1

/-- Scale a positive rational into `[2^52, 2^53)` by repeated doubling or halving,
tracking the exponent so that the input equals `result.1 * 2 ^ result.2`. -/
def normLoop : Nat → ℚ → ℤ → ℚ × ℤ
  | 0, q, e => (q, e)
  | f + 1, q, e =>
    if q < 2 ^ 52 then normLoop f (q * 2) (e - 1)
    else if 2 ^ 53 ≤ q then normLoop f (q / 2) (e + 1)
    else (q, e)

/-- Round a positive rational to 53 significant binary digits, to nearest, ties to
even. -/
def roundNEp (q : ℚ) : ℚ :=
  let p := normLoop (q.num.natAbs + q.den + 120) q 0
  (rint p.1 : ℚ) * (2 : ℚ) ^ p.2

/-- Round a rational to the binary64 result of an exact operation: round to nearest,
ties to even, 53 significant bits (IEEE-754 rounding is sign-symmetric). -/
def roundNE (q : ℚ) : ℚ :=
  if q = 0 then 0
  else if q < 0 then - roundNEp (-q)
  else roundNEp q

/-- Binary64 addition: the exact sum, rounded. -/
def fadd64 (a b : ℚ) : ℚ := roundNE (a + b)

/-- Binary64 subtraction: the exact difference, rounded. -/
def fsub64 (a b : ℚ) : ℚ := roundNE (a - b)

/-- Model of `Bank::transfer` with the balance updates performed in binary64 `double`
arithmetic, as the C++ executes them. -/
def transfer64 : BankSt → String → Int → String → Int → Nat → ℚ →
    BankSt × Except Nat (ℚ × ℚ) :=
  transferOps fsub64 fadd64

/-! ## The dispatcher's per-opcode business dispatch (main.cpp lines 181-343)

The body fields arrive already parsed (the byte-level field parsing itself is the
codec above); `none` models a parse failure of the request body, which main.cpp answers
with `ERR_BAD_REQUEST` and an untouched (empty) reply body.  The success bodies are
built with the same writers the source calls; the value-to-bit-pattern conversion a
`putDouble(body, someBalance)` performs is the parameter `encD`, since reply bodies on
success are not the subject of any claim. -/

/-- A parsed request body for one of the banking opcodes, in the field order the
dispatcher reads (main.cpp). -/
inductive BankReq where
  | openA : String → String → Nat → ℚ → BankReq
  | closeA : String → Int → String → BankReq
  | depositA : String → Int → String → Nat → ℚ → BankReq
  | withdrawA : String → Int → String → Nat → ℚ → BankReq
  | transferA : String → Int → String → Int → Nat → ℚ → BankReq
  | queryA : String → Int → String → BankReq
deriving DecidableEq

/-- Byte sequence of an ASCII string literal used in a reply body. -/
def strB (s : String) : List Nat := s.data.map Char.toNat

/-- The banking branch of the dispatcher (main.cpp lines 181-327): route the parsed
request to the `Bank` operation, build `(new bank state, reply status, reply body)`.
On a body-parse failure (`none`) and on every processor failure the reply body stays
empty; only success paths append result fields. -/
def handleBankReq (encD : ℚ → List Nat) (b : BankSt) :
    Option BankReq → BankSt × Nat × List Nat
  | none => (b, ST_BAD_REQUEST, [])
  | some (BankReq.openA name pw cur initial) =>
    match openAccount b name pw cur initial with
    | (b', Except.error e) => (b', e, [])
    | (b', Except.ok (accNo, bal)) => (b', ST_OK, putI32b [] accNo ++ encD bal)
  | some (BankReq.closeA name accNo pw) =>
    match closeAccount b name accNo pw with
    | (b', Except.error e) => (b', e, [])
    | (b', Except.ok _) => (b', ST_OK, putStringB [] (strB "account closed"))
  | some (BankReq.depositA name accNo pw cur amt) =>
    match deposit b name accNo pw cur amt with
    | (b', Except.error e) => (b', e, [])
    | (b', Except.ok bal) => (b', ST_OK, encD bal)
  | some (BankReq.withdrawA name accNo pw cur amt) =>
    match withdraw b name accNo pw cur amt with
    | (b', Except.error e) => (b', e, [])
    | (b', Except.ok bal) => (b', ST_OK, encD bal)
  | some (BankReq.transferA name fromA pw toA cur amt) =>
    match transferQ b name fromA pw toA cur amt with
    | (b', Except.error e) => (b', e, [])
    | (b', Except.ok (fb, tb)) => (b', ST_OK, encD fb ++ encD tb)
  | some (BankReq.queryA name accNo pw) =>
    match queryBalance b name accNo pw with
    | (b', Except.error e) => (b', e, [])
    | (b', Except.ok (cur, bal)) => (b', ST_OK, putU16b [] cur ++ encD bal)

/-! ## The dispatcher loop (main.cpp lines 119-361)

The deduplication cache maps the key string `clientKey + "#" + requestId` to the cached
reply bytes and their expiry instant; time is the `steady_clock` value in seconds,
modelled as `Nat`.  One `serverStep` is one loop iteration for one received datagram:
sweep, simulated request loss, decode, version/msgType screening, dedup lookup,
processing, dedup insertion, simulated reply loss.  The processor (`handle`) is a
parameter, as in §4.2 of the spec; the third component of the result records whether
this iteration invoked it. -/

/-- A cached reply: the bytes sent for the original request and the expiry instant. -/
structure DEntry where
  bytes : List Nat
  expireAt : Nat
deriving DecidableEq

/-- Dedup-map lookup (`dedup.find(dedupKey)`). -/
def dlookup : List (String × DEntry) → String → Option DEntry
  | [], _ => none
  | e :: t, k => if e.1 = k then some e.2 else dlookup t k

/-- Dedup-map store (`dedup[dedupKey] = entry`): replace or append. -/
def dinsertD : List (String × DEntry) → String → DEntry → List (String × DEntry)
  | [], k, v => [(k, v)]
  | e :: t, k, v => if e.1 = k then (k, v) :: t else e :: dinsertD t k v

/-- The per-iteration sweep (main.cpp lines 125-128): erase entries with
`expireAt <= now`. -/
def sweepD (d : List (String × DEntry)) (now : Nat) : List (String × DEntry) :=
  d.filter (fun e => decide (now < e.2.expireAt))

/-- The dedup key (main.cpp line 152): `clientKey + "#" + requestId`. -/
def mkKey (peer : String) (reqId : Nat) : String := peer ++ "#" ++ toString reqId

/-- The reply skeleton (main.cpp lines 172-179 and 345): header fields copied from the
request, `msgType = Reply`, the final status, and `bodyLen` recomputed from the body. -/
def mkReply (req : Msg) (status : Nat) (body : List Nat) : Msg :=
  { magic := MAGICN, version := 1, msgType := 2, opCode := req.opCode,
    flags := req.flags, status := status, requestId := req.requestId,
    bodyLen := body.length, body := body }

/-- The dispatcher state: the processor state and the dedup cache.  (The monitor list
affects only callback datagrams, which no claim concerns.) -/
structure SrvState (σ : Type) where
  proc : σ
  dedup : List (String × DEntry)

/-- One dispatcher iteration for a datagram `raw` received from `peer` at instant
`now`.  `dropReq`/`dropRep` are the outcomes of the two Bernoulli loss draws.  Returns
the new state, the datagram sent to the peer (if any), and whether the processor ran. -/
def serverStep {σ : Type} (handle : σ → Msg → σ × Nat × List Nat) (st : SrvState σ)
    (now : Nat) (peer : String) (raw : List Nat) (dropReq dropRep : Bool) :
    SrvState σ × Option (List Nat) × Bool :=
  let st1 : SrvState σ := { st with dedup := sweepD st.dedup now }
  if dropReq then (st1, none, false)
  else
    match decode raw with
    | none => (st1, none, false)
    | some req =>
      if req.version ≠ 1 ∨ req.msgType ≠ 1 then (st1, none, false)
      else
        let amo : Bool := decide (req.flags % 2 = 1)
        let key := mkKey peer req.requestId
        match (if amo then dlookup st1.dedup key else none) with
        | some entry => (st1, if dropRep then none else some entry.bytes, false)
        | none =>
          let r := handle st1.proc req
          let bytes := encode (mkReply req r.2.1 r.2.2)
          let st2 : SrvState σ :=
            { proc := r.1,
              dedup := if amo then dinsertD st1.dedup key ⟨bytes, now + 60⟩
                       else st1.dedup }
          (st2, if dropRep then none else some bytes, true)

/-- Run the dispatcher over a sequence of deliveries of the same datagram `raw` from
the same `peer` — the resend scenario.  Each element of `steps` is the receive instant
and the reply-loss draw for one delivery; the request-loss draw is `false` for all of
them (a datagram dropped by the loss simulation stands for one the network lost, i.e.
one that never arrived).  Produces the (sent datagram, processor ran) record of each
iteration. -/
def runResends {σ : Type} (handle : σ → Msg → σ × Nat × List Nat) :
    SrvState σ → String → List Nat → List (Nat × Bool) → List (Option (List Nat) × Bool)
  | _, _, _, [] => []
  | st, peer, raw, s :: rest =>
    let r := serverStep handle st s.1 peer raw false s.2
    (r.2.1, r.2.2) :: runResends handle r.1 peer raw rest

/-- The reply bytes the dispatcher produces and caches when it first processes `req`
against processor state `st0`. -/
def firstReplyBytes {σ : Type} (handle : σ → Msg → σ × Nat × List Nat)
    (st0 : SrvState σ) (req : Msg) : List Nat :=
  encode (mkReply req (handle st0.proc req).2.1 (handle st0.proc req).2.2)

/-! ## Generic helper instances and lemmas -/

/-- Decidable equality for `Except`, required to evaluate bank-operation results on
concrete inputs. -/
def exceptDecEq {ε α : Type} [DecidableEq ε] [DecidableEq α] :
    DecidableEq (Except ε α)
  | Except.error x, Except.error y =>
    match decEq x y with
    | isTrue h => isTrue (h ▸ rfl)
    | isFalse h => isFalse (fun hc => h (by cases hc; rfl))
  | Except.error _, Except.ok _ => isFalse (fun hc => Except.noConfusion hc)
  | Except.ok _, Except.error _ => isFalse (fun hc => Except.noConfusion hc)
  | Except.ok x, Except.ok y =>
    match decEq x y with
    | isTrue h => isTrue (h ▸ rfl)
    | isFalse h => isFalse (fun hc => h (by cases hc; rfl))

instance {ε α : Type} [DecidableEq ε] [DecidableEq α] : DecidableEq (Except ε α) :=
  exceptDecEq

/-- A lookup in the account list after a store: the stored key answers with the stored
record, every other key is unaffected. -/
theorem findAcc_putAccL (l : List (Int × Account)) (n : Int) (a : Account) (m : Int) :
    findAcc (putAccL l n a) m = if m = n then some a else findAcc l m := by
  induction l with
  | nil =>
    by_cases h : m = n
    · simp [putAccL, findAcc, h]
    · have h' : ¬ n = m := fun hc => h hc.symm
      simp [putAccL, findAcc, h, h']
  | cons e t ih =>
    by_cases he : e.1 = n <;> by_cases hm : m = n
    · simp [putAccL, findAcc, he, hm]
    · have h1 : ¬ n = m := fun hc => hm hc.symm
      have h2 : ¬ e.1 = m := fun hc => h1 (he ▸ hc)
      simp [putAccL, findAcc, he, hm, h1, h2]
    · have h2 : ¬ e.1 = m := fun hc => he (hc.trans hm)
      subst hm
      simp [putAccL, findAcc, he, h2, ih]
    · by_cases h2 : e.1 = m <;> simp [putAccL, findAcc, he, hm, h2, ih]

/-! ## Claim C9 — putString silently omits overlong strings -/

/-- C9: for every string longer than 65535 bytes, `putString` leaves the output buffer
entirely unchanged — neither a length prefix nor payload bytes are appended — and, being
a `void` early return, signals no error to the caller. -/
theorem putString_overlong_noop (b s : List Nat) (h : 65535 < s.length) :
    putStringB b s = b := by
  simp [putStringB, h]

/-- Witness for C9 at a concrete 65536-byte string. -/
theorem putString_overlong_noop_witness :
    65535 < (List.replicate 65536 7).length ∧
      putStringB [] (List.replicate 65536 7) = [] :=
  ⟨by rw [List.length_replicate]; decide, putString_overlong_noop [] (List.replicate 65536 7)
    (by rw [List.length_replicate]; decide)⟩

/-! ## Claim C3 — what putDouble actually emits -/

/-- The bit pattern of the double 1.0 (0x3FF0000000000000). -/
def bitsOfOne : Nat := 0x3FF0000000000000

/-- C3 counterexample: for the double 1.0 on a little-endian host, the bytes `putDouble`
emits are not the in-memory (native little-endian) byte order — they are exactly the
byte-reversal of it, i.e. the IEEE-754 bit pattern in big-endian network order, sign and
exponent byte first.  This refutes both halves of the claim: the wire order is not the
memory order, and it is precisely big-endian IEEE-754. -/
theorem putDouble_wire_order_cex :
    putDoubleB [] bitsOfOne ≠ leMemBytes64 bitsOfOne ∧
      putDoubleB [] bitsOfOne = [0x3F, 0xF0, 0, 0, 0, 0, 0, 0] ∧
      putDoubleB [] bitsOfOne = (leMemBytes64 bitsOfOne).reverse := by
  refine ⟨by decide, by decide, by decide⟩

/-- C3 (amended): `putDouble` emits the 8 bytes of the double's bit pattern in
big-endian order — the standard IEEE-754 network byte order on every host — which on a
little-endian host is the byte-reversal of the in-memory representation, not the memory
order. -/
theorem putDouble_big_endian_bits (b : List Nat) (bits : Nat) :
    putDoubleB b bits = b ++ beBytes64 bits ∧
      beBytes64 bits = (leMemBytes64 bits).reverse := by
  exact ⟨rfl, rfl⟩

/-! ## Claim C10 — the server enforces no lower bound on the initial amount -/

/-- The guard of the interactive client (client.cpp lines 287-292): `Client::handleOpen`
refuses to send the request when the operator enters a negative initial balance; this
check exists only on the client side. -/
def clientOpenInitialOk (initial : ℚ) : Bool := !(decide (initial < 0))

/-- C10: server-side `Bank::openAccount` applies no constraint to the initial amount:
for every password of 1 to 16 bytes it succeeds for every initial value — negative ones
included — creating an account whose balance is exactly that value, and advancing the
allocator; its only failure is ERR_PASSWORD_FORMAT for an empty or overlong password.
The `initial ≥ 0` check lives only in the interactive client's input validation. -/
theorem open_no_initial_lower_bound (b : BankSt) (name pw : String) (cur : Nat)
    (initial : ℚ) :
    (1 ≤ pw.length → pw.length ≤ 16 →
      openAccount b name pw cur initial =
        ({ nextAccNo := b.nextAccNo + 1,
           accounts := putAccL b.accounts b.nextAccNo
             { accountNo := b.nextAccNo, name := name, password := pw, currency := cur,
               balance := initial, closed := false } },
         Except.ok (b.nextAccNo, initial))) ∧
    ((pw.length = 0 ∨ 16 < pw.length) →
      openAccount b name pw cur initial = (b, Except.error ST_PASSWORD_FORMAT)) ∧
    (clientOpenInitialOk initial = false ↔ initial < 0) := by
  refine ⟨?_, ?_, ?_⟩
  · intro h1 h2
    have hc : ¬ (pw.length = 0 ∨ pw.length > 16) := by omega
    simp [openAccount, hc]
  · intro h
    have hc : pw.length = 0 ∨ pw.length > 16 := h
    simp [openAccount, hc]
  · simp [clientOpenInitialOk]

/-- Witness for C10: a negative initial balance of -5 is accepted by the server and
stored exactly. -/
theorem open_no_initial_lower_bound_witness :
    1 ≤ ("pw" : String).length ∧ ("pw" : String).length ≤ 16 ∧
      openAccount { nextAccNo := 10001, accounts := [] } "alice" "pw" 0 (-5) =
        ({ nextAccNo := 10002,
           accounts := [(10001, { accountNo := 10001, name := "alice", password := "pw",
                                  currency := 0, balance := -5, closed := false })] },
         Except.ok (10001, -5)) :=
  ⟨by decide, by decide, by
    have h := (open_no_initial_lower_bound { nextAccNo := 10001, accounts := [] }
      "alice" "pw" 0 (-5)).1 (by decide) (by decide)
    exact h.trans (by decide)⟩

/-! ## Claim C4 — when decode rejects -/

/-- A 24-byte buffer: correct magic "BANK", version byte 2, msgType Request, opCode 6,
flags 0, status 0, requestId 9, bodyLen 0. -/
def version2Buf : List Nat :=
  [0x42, 0x41, 0x4E, 0x4B, 2, 1, 0, 6, 0, 0, 0, 0, 0, 0, 0, 0, 0, 0, 0, 9, 0, 0, 0, 0]

/-- C4 counterexample: a buffer that is well-formed except for a version byte of 2 is
*accepted* by `decode` — the codec never examines the version field (the dispatcher
screens it after decoding), so "decode fails when the protocol version mismatches" is
false as stated. -/
theorem decode_accepts_version_two_cex :
    decode version2Buf ≠ none ∧
      decode version2Buf =
        some { magic := MAGICN, version := 2, msgType := 1, opCode := 6, flags := 0,
               status := 0, requestId := 9, bodyLen := 0, body := [] } := by
  refine ⟨by decide, by decide⟩

/-- C4 (amended): `decode raw` rejects exactly when the 24-byte fixed header is
truncated, the magic mismatches, or fewer than `bodyLen` bytes remain after the header;
trailing bytes beyond the declared body never cause a failure, and the version byte is
not examined (the failure condition does not mention it — version screening happens in
the server dispatcher after decoding). -/
theorem decode_reject_conditions (raw : List Nat) :
    decode raw = none ↔
      raw.length < 24 ∨ u32at raw 0 ≠ MAGICN ∨ raw.length < 24 + u32at raw 20 := by
  rcases lt_or_le raw.length 24 with hL | hL
  · have h20 : ¬ (20 + 4 ≤ raw.length) := by omega
    constructor
    · intro _; exact Or.inl hL
    · intro _
      unfold decode getU32o getU16o getU64o
      by_cases h0 : 0 + 4 ≤ raw.length
      · simp only [h0, if_true]
        by_cases hmg : u32at raw 0 ≠ MAGICN
        · simp [hmg]
        · simp only [hmg, if_false]
          by_cases h6 : raw.length < 6
          · simp [h6]
          · simp [h6, h20]
      · simp [h0]
  · have h0 : 0 + 4 ≤ raw.length := by omega
    have h6 : ¬ raw.length < 6 := by omega
    have h62 : 6 + 2 ≤ raw.length := by omega
    have h82 : 8 + 2 ≤ raw.length := by omega
    have h102 : 10 + 2 ≤ raw.length := by omega
    have h128 : 12 + 8 ≤ raw.length := by omega
    have h204 : 20 + 4 ≤ raw.length := by omega
    unfold decode getU32o getU16o getU64o
    simp only [h0, h6, h62, h82, h102, h128, h204, if_true, if_false]
    by_cases hmg : u32at raw 0 ≠ MAGICN
    · simp [hmg, hL]
    · by_cases hbl : raw.length < 24 + u32at raw 20
      · simp [hmg, hbl]
      · simp [hmg, hbl]
        omega

/-! ## Claim C5 — decode ∘ encode round-trip -/

/-- C5 counterexample: a message whose `bodyLen` equals its body length (the claim's
well-formedness) but whose magic field is not the protocol constant encodes fine, yet
`decode` rejects the result — so the round-trip fails for such messages. -/
theorem roundtrip_needs_magic_cex :
    (let m : Msg := { magic := 0, version := 1, msgType := 1, opCode := 0, flags := 0,
                      status := 0, requestId := 0, bodyLen := 0, body := [] }
     m.bodyLen = m.body.length ∧ decode (encode m) = none) := by
  refine ⟨by decide, by decide⟩

/-- C5 (amended): for every message whose fields fit the C++ header's integer widths,
whose magic is the protocol constant, and whose `bodyLen` equals its body length,
`decode (encode m)` succeeds and returns exactly `m`. -/
theorem decode_encode_roundtrip (m : Msg) (hmg : m.magic = MAGICN) (hw : m.wfWidths)
    (hbl : m.bodyLen = m.body.length) : decode (encode m) = some m := by
  obtain ⟨h1, h2, h3, h4, h5, h6, h7, h8⟩ := hw
  have hlen : (encode m).length = 24 + m.body.length := by
    simp [encode, beBytes32, beBytes16, beBytes64]
    omega
  have hb4 : byteAt (encode m) 4 = m.version % 256 := rfl
  have hb5 : byteAt (encode m) 5 = m.msgType % 256 := rfl
  have hu0 : u32at (encode m) 0 = m.magic := by
    show m.magic / 16777216 % 256 * 16777216 + m.magic / 65536 % 256 * 65536 +
      m.magic / 256 % 256 * 256 + m.magic % 256 = m.magic
    omega
  have hu6 : u16at (encode m) 6 = m.opCode := by
    show m.opCode / 256 % 256 * 256 + m.opCode % 256 = m.opCode
    omega
  have hu8 : u16at (encode m) 8 = m.flags := by
    show m.flags / 256 % 256 * 256 + m.flags % 256 = m.flags
    omega
  have hu10 : u16at (encode m) 10 = m.status := by
    show m.status / 256 % 256 * 256 + m.status % 256 = m.status
    omega
  have hu12 : u64at (encode m) 12 = m.requestId := by
    show (m.requestId / 72057594037927936 % 256 * 16777216 +
      m.requestId / 281474976710656 % 256 * 65536 +
      m.requestId / 1099511627776 % 256 * 256 +
      m.requestId / 4294967296 % 256) * 4294967296 +
      (m.requestId / 16777216 % 256 * 16777216 + m.requestId / 65536 % 256 * 65536 +
       m.requestId / 256 % 256 * 256 + m.requestId % 256) = m.requestId
    omega
  have hu20 : u32at (encode m) 20 = m.bodyLen := by
    show m.bodyLen / 16777216 % 256 * 16777216 + m.bodyLen / 65536 % 256 * 65536 +
      m.bodyLen / 256 % 256 * 256 + m.bodyLen % 256 = m.bodyLen
    omega
  have hdrop : (encode m).drop 24 = m.body := rfl
  unfold decode getU32o getU16o getU64o
  rw [hlen]
  have c0 : 0 + 4 ≤ 24 + m.body.length := by omega
  have c6 : ¬ (24 + m.body.length < 6) := by omega
  have c62 : 6 + 2 ≤ 24 + m.body.length := by omega
  have c82 : 8 + 2 ≤ 24 + m.body.length := by omega
  have c102 : 10 + 2 ≤ 24 + m.body.length := by omega
  have c128 : 12 + 8 ≤ 24 + m.body.length := by omega
  have c204 : 20 + 4 ≤ 24 + m.body.length := by omega
  simp only [c0, c6, c62, c82, c102, c128, c204, if_true, if_false, ite_true, ite_false,
    hu0, hu6, hu8, hu10, hu12, hu20, hb4, hb5, hdrop]
  rw [hmg]
  have cmag : ¬ (MAGICN ≠ MAGICN) := fun hc => hc rfl
  have cbl : ¬ (24 + m.body.length < 24 + m.bodyLen) := by omega
  simp only [cmag, cbl, if_true, if_false, ite_true, ite_false]
  have hver : m.version % 256 = m.version := Nat.mod_eq_of_lt h2
  have hty : m.msgType % 256 = m.msgType := Nat.mod_eq_of_lt h3
  have htake : (m.body).take m.bodyLen = m.body := by
    rw [hbl]; exact List.take_length m.body
  rw [hver, hty, htake, ← hmg]

/-- Witness for C5 at a concrete message with a non-empty body. -/
theorem decode_encode_roundtrip_witness :
    (let m : Msg := { magic := MAGICN, version := 1, msgType := 2, opCode := 3,
                      flags := 1, status := 0, requestId := 77, bodyLen := 2,
                      body := [10, 20] }
     m.magic = MAGICN ∧ m.wfWidths ∧ m.bodyLen = m.body.length ∧
       decode (encode m) = some m) :=
  ⟨rfl, by decide, by decide, decode_encode_roundtrip _ rfl (by decide) (by decide)⟩

/-! ## Claim C2 — what a mismatched packet does to the client's attempt loop -/

/-- A reply correlating to a different call (requestId 7). -/
def msgOtherReply : Msg :=
  { magic := MAGICN, version := 1, msgType := 2, opCode := 6, flags := 0, status := 0,
    requestId := 7, bodyLen := 0, body := [] }

/-- The legitimate reply for the call with requestId 5. -/
def msgOurReply : Msg :=
  { magic := MAGICN, version := 1, msgType := 2, opCode := 6, flags := 0, status := 0,
    requestId := 5, bodyLen := 0, body := [] }

/-- C2 counterexample: with `retryCount = 1` and requestId 5, a packet that decodes to
a Reply with a foreign requestId arrives first, and the legitimate reply is already
queued right behind it within the same attempt's timeout window.  The claim says the
mismatch must not consume the attempt and the receive loop must continue until the
legitimate reply is returned; in the source the mismatch path executes `continue` of
the attempt `for` loop, so the only attempt is consumed and the call fails without ever
reading the legitimate reply — and with more attempts remaining it would have resent
the request.  (Compare: with only the legitimate reply queued, the same call
succeeds.) -/
theorem client_mismatch_cex :
    decode (encode msgOtherReply) = some msgOtherReply ∧
      msgOtherReply.msgType = 2 ∧ msgOtherReply.requestId ≠ 5 ∧
      callLoop 5 1 [CEvent.pkt (encode msgOtherReply), CEvent.pkt (encode msgOurReply)] =
        (1, none) ∧
      callLoop 5 1 [CEvent.pkt (encode msgOurReply)] = (1, some msgOurReply) := by
  refine ⟨by decide, by decide, by decide, by decide, by decide⟩

/-- C2 (amended): a received packet that decodes but is not a Reply or carries a
foreign requestId *does* consume the current attempt: the attempt ends exactly as on a
timeout, and if attempts remain the next one re-sends the request (one more datagram
sent); the call returns such a packet to nobody.  Only after `retryCount` attempts does
the call fail. -/
theorem client_mismatch_consumes_attempt (reqId r : Nat) (bs : List Nat) (m : Msg)
    (rest : List CEvent) (hdec : decode bs = some m)
    (hmis : m.msgType ≠ 2 ∨ m.requestId ≠ reqId) :
    callLoop reqId (r + 1) (CEvent.pkt bs :: rest) =
      ((callLoop reqId r rest).1 + 1, (callLoop reqId r rest).2) := by
  rcases hmis with h | h
  · simp [callLoop, hdec, h]
  · by_cases ht : m.msgType = 2
    · simp [callLoop, hdec, ht, h]
    · simp [callLoop, hdec, ht]

/-- Witness for C2's amended statement at the concrete mismatching packet. -/
theorem client_mismatch_consumes_attempt_witness :
    decode (encode msgOtherReply) = some msgOtherReply ∧
      (msgOtherReply.msgType ≠ 2 ∨ msgOtherReply.requestId ≠ 5) ∧
      callLoop 5 1 [CEvent.pkt (encode msgOtherReply)] =
        ((callLoop 5 0 []).1 + 1, (callLoop 5 0 []).2) :=
  ⟨by decide, by decide,
    client_mismatch_consumes_attempt 5 0 (encode msgOtherReply) msgOtherReply []
      (by decide) (by decide)⟩

/-! ## Claim C7 — failed operations change nothing and reply with an empty body -/

/-- Helper: `openAccount` returns the bank unchanged whenever it fails (the password check
precedes the allocator increment and the store). -/
theorem openAccount_error_state (b : BankSt) (name pw : String) (cur : Nat)
    (initial : ℚ) (b' : BankSt) (e : Nat)
    (h : openAccount b name pw cur initial = (b', Except.error e)) : b' = b := by
  unfold openAccount at h
  repeat' split at h
  all_goals simp_all

/-- Helper: `closeAccount` returns the bank unchanged whenever it fails. -/
theorem closeAccount_error_state (b : BankSt) (name : String) (accNo : Int)
    (pw : String) (b' : BankSt) (e : Nat)
    (h : closeAccount b name accNo pw = (b', Except.error e)) : b' = b := by
  unfold closeAccount at h
  repeat' split at h
  all_goals simp_all

/-- Helper: `deposit` returns the bank unchanged whenever it fails. -/
theorem deposit_error_state (b : BankSt) (name : String) (accNo : Int) (pw : String)
    (cur : Nat) (amt : ℚ) (b' : BankSt) (e : Nat)
    (h : deposit b name accNo pw cur amt = (b', Except.error e)) : b' = b := by
  unfold deposit at h
  repeat' split at h
  all_goals simp_all

/-- Helper: `withdraw` returns the bank unchanged whenever it fails. -/
theorem withdraw_error_state (b : BankSt) (name : String) (accNo : Int) (pw : String)
    (cur : Nat) (amt : ℚ) (b' : BankSt) (e : Nat)
    (h : withdraw b name accNo pw cur amt = (b', Except.error e)) : b' = b := by
  unfold withdraw at h
  repeat' split at h
  all_goals simp_all

/-- Helper: `transfer` (with any choice of balance arithmetic) returns the bank unchanged
whenever it fails. -/
theorem transferOps_error_state (sub add : ℚ → ℚ → ℚ) (b : BankSt) (name : String)
    (fromA : Int) (pw : String) (toA : Int) (cur : Nat) (amt : ℚ) (b' : BankSt)
    (e : Nat) (h : transferOps sub add b name fromA pw toA cur amt =
      (b', Except.error e)) : b' = b := by
  unfold transferOps at h
  repeat' split at h
  all_goals simp_all


/-- Helper: `queryBalance` returns the bank unchanged whenever it fails (it never changes it at
all). -/
theorem queryBalance_error_state (b : BankSt) (name : String) (accNo : Int)
    (pw : String) (b' : BankSt) (e : Nat)
    (h : queryBalance b name accNo pw = (b', Except.error e)) : b' = b := by
  unfold queryBalance at h
  repeat' split at h
  all_goals simp_all

/-- C7: whenever a banking operation (OPEN, CLOSE, DEPOSIT, WITHDRAW, TRANSFER,
QUERY_BALANCE) produces a non-OK reply status — including a body-parse failure — the
bank state is completely unchanged (no balance, currency, name, password or closed flag
changes, no account is created, the allocator does not advance) and the reply body is
empty. -/
theorem bank_error_unchanged_empty_body (encD : ℚ → List Nat) (b : BankSt)
    (r : Option BankReq) (hst : (handleBankReq encD b r).2.1 ≠ ST_OK) :
    (handleBankReq encD b r).1 = b ∧ (handleBankReq encD b r).2.2 = [] := by
  match r with
  | none => exact ⟨rfl, rfl⟩
  | some (BankReq.openA name pw cur initial) =>
    rcases hop : openAccount b name pw cur initial with ⟨b1, res⟩
    rcases res with e | val
    · have hb := openAccount_error_state _ _ _ _ _ _ _ hop
      simp [handleBankReq, hop, hb]
    · rcases val with ⟨accNo, bal⟩
      exfalso
      apply hst
      simp [handleBankReq, hop]
  | some (BankReq.closeA name accNo pw) =>
    rcases hop : closeAccount b name accNo pw with ⟨b1, res⟩
    rcases res with e | val
    · have hb := closeAccount_error_state _ _ _ _ _ _ hop
      simp [handleBankReq, hop, hb]
    · exfalso
      apply hst
      simp [handleBankReq, hop]
  | some (BankReq.depositA name accNo pw cur amt) =>
    rcases hop : deposit b name accNo pw cur amt with ⟨b1, res⟩
    rcases res with e | val
    · have hb := deposit_error_state _ _ _ _ _ _ _ _ hop
      simp [handleBankReq, hop, hb]
    · exfalso
      apply hst
      simp [handleBankReq, hop]
  | some (BankReq.withdrawA name accNo pw cur amt) =>
    rcases hop : withdraw b name accNo pw cur amt with ⟨b1, res⟩
    rcases res with e | val
    · have hb := withdraw_error_state _ _ _ _ _ _ _ _ hop
      simp [handleBankReq, hop, hb]
    · exfalso
      apply hst
      simp [handleBankReq, hop]
  | some (BankReq.transferA name fromA pw toA cur amt) =>
    rcases hop : transferQ b name fromA pw toA cur amt with ⟨b1, res⟩
    rcases res with e | val
    · have hb := transferOps_error_state _ _ _ _ _ _ _ _ _ _ _
        (by rw [← transferQ]; exact hop)
      simp [handleBankReq, hop, hb]
    · rcases val with ⟨fb, tb⟩
      exfalso
      apply hst
      simp [handleBankReq, hop]
  | some (BankReq.queryA name accNo pw) =>
    rcases hop : queryBalance b name accNo pw with ⟨b1, res⟩
    rcases res with e | val
    · have hb := queryBalance_error_state _ _ _ _ _ _ hop
      simp [handleBankReq, hop, hb]
    · rcases val with ⟨cur, bal⟩
      exfalso
      apply hst
      simp [handleBankReq, hop]

/-- A one-account bank used by the concrete witnesses. -/
def bankW : BankSt :=
  { nextAccNo := 10002,
    accounts := [(10001, { accountNo := 10001, name := "a", password := "p",
                           currency := 0, balance := 100, closed := false })] }

/-- Witness for C7: a DEPOSIT with a wrong password fails with ERR_AUTH, leaves the
bank untouched, and the reply body is empty. -/
theorem bank_error_unchanged_empty_body_witness :
    (handleBankReq (fun _ => []) bankW
        (some (BankReq.depositA "a" 10001 "x" 0 5))).2.1 ≠ ST_OK ∧
      ((handleBankReq (fun _ => []) bankW
          (some (BankReq.depositA "a" 10001 "x" 0 5))).1 = bankW ∧
        (handleBankReq (fun _ => []) bankW
          (some (BankReq.depositA "a" 10001 "x" 0 5))).2.2 = []) :=
  ⟨by decide, bank_error_unchanged_empty_body (fun _ => []) bankW _ (by decide)⟩

/-! ## Claim C8 — closed accounts are indistinguishable from missing ones -/

/-- C8: every account-number-taking operation (CLOSE, DEPOSIT, WITHDRAW, TRANSFER in
either role, QUERY_BALANCE) answers a dead account number — one with no record *or*
with a closed record, the two cases `deadAcc` does not separate — with exactly the same
observable outcome: the same status (ERR_NOT_FOUND, except the TRANSFER self-transfer
guard which fires first with ERR_BAD_REQUEST in both cases alike), no outputs, and an
entirely unchanged bank state.  Since the right-hand sides below depend only on
`deadAcc b a = true` and never on which of the two cases holds, a caller cannot tell a
closed account from a missing one through this interface. -/
theorem closed_missing_indistinguishable (b : BankSt) (name pw : String)
    (a other : Int) (cur : Nat) (amt : ℚ) (hdead : deadAcc b a = true) :
    closeAccount b name a pw = (b, Except.error ST_NOT_FOUND) ∧
      deposit b name a pw cur amt = (b, Except.error ST_NOT_FOUND) ∧
      withdraw b name a pw cur amt = (b, Except.error ST_NOT_FOUND) ∧
      queryBalance b name a pw = (b, Except.error ST_NOT_FOUND) ∧
      transferQ b name a pw other cur amt =
        (b, Except.error (if a = other then ST_BAD_REQUEST else ST_NOT_FOUND)) ∧
      (a ≠ other →
        transferQ b name other pw a cur amt = (b, Except.error ST_NOT_FOUND)) := by
  have hdead' : findAcc b.accounts a = none ∨
      ∃ acct, findAcc b.accounts a = some acct ∧ acct.closed = true := by
    unfold deadAcc at hdead
    rcases hf : findAcc b.accounts a with _ | acct
    · exact Or.inl rfl
    · rw [hf] at hdead
      exact Or.inr ⟨acct, rfl, hdead⟩
  refine ⟨?_, ?_, ?_, ?_, ?_, ?_⟩
  · rcases hdead' with hf | ⟨acct, hf, hcl⟩
    · simp [closeAccount, hf]
    · simp [closeAccount, hf, hcl]
  · rcases hdead' with hf | ⟨acct, hf, hcl⟩
    · simp [deposit, hf]
    · simp [deposit, hf, hcl]
  · rcases hdead' with hf | ⟨acct, hf, hcl⟩
    · simp [withdraw, hf]
    · simp [withdraw, hf, hcl]
  · rcases hdead' with hf | ⟨acct, hf, hcl⟩
    · simp [queryBalance, hf]
    · simp [queryBalance, hf, hcl]
  · by_cases ho : a = other
    · simp [transferQ, transferOps, ho]
    · rcases hdead' with hf | ⟨acct, hf, hcl⟩
      · simp [transferQ, transferOps, ho, hf]
      · simp [transferQ, transferOps, ho, hf, hcl]
  · intro ho
    have ho' : ¬ other = a := fun hc => ho hc.symm
    rcases hfo : findAcc b.accounts other with _ | af
    · simp [transferQ, transferOps, ho', hfo]
    · by_cases hafc : af.closed
      · simp [transferQ, transferOps, ho', hfo, hafc]
      · rcases hdead' with hf | ⟨acct, hf, hcl⟩
        · simp [transferQ, transferOps, ho', hfo, hafc, hf]
        · simp [transferQ, transferOps, ho', hfo, hafc, hf, hcl]

/-- A bank holding only a closed account 10001. -/
def bankClosed : BankSt :=
  { nextAccNo := 10002,
    accounts := [(10001, { accountNo := 10001, name := "a", password := "p",
                           currency := 0, balance := 100, closed := true })] }

/-- Witness for C8: DEPOSIT to the closed account 10001 of `bankClosed` and DEPOSIT to
the entirely absent account 20001 of `bankW` deliver the same observation — status
ERR_NOT_FOUND, no outputs, bank unchanged. -/
theorem closed_missing_indistinguishable_witness :
    deadAcc bankClosed 10001 = true ∧ deadAcc bankW 20001 = true ∧
      deposit bankClosed "a" 10001 "p" 0 5 = (bankClosed, Except.error ST_NOT_FOUND) ∧
      deposit bankW "a" 20001 "p" 0 5 = (bankW, Except.error ST_NOT_FOUND) :=
  ⟨by decide, by decide,
    (closed_missing_indistinguishable bankClosed "a" "p" 10001 0 0 5 (by decide)).2.1,
    (closed_missing_indistinguishable bankW "a" "p" 20001 0 0 5 (by decide)).2.1⟩

/-! ## Claim C1 — at-most-once: one invocation, byte-identical replays -/

/-- Sweeping preserves the absence of a key. -/
theorem dlookup_sweep_none (d : List (String × DEntry)) (now : Nat) (k : String)
    (h : dlookup d k = none) : dlookup (sweepD d now) k = none := by
  induction d with
  | nil => simp [sweepD, dlookup]
  | cons e t ih =>
    by_cases hk : e.1 = k
    · simp [dlookup, hk] at h
    · have h' : dlookup t k = none := by simpa [dlookup, hk] using h
      by_cases hkeep : now < e.2.expireAt
      · simpa [sweepD, List.filter_cons, hkeep, dlookup, hk] using ih h'
      · simpa [sweepD, List.filter_cons, hkeep] using ih h'

/-- Sweeping keeps an entry that has not yet expired. -/
theorem dlookup_sweep_live (d : List (String × DEntry)) (now : Nat) (k : String)
    (v : DEntry) (h : dlookup d k = some v) (hl : now < v.expireAt) :
    dlookup (sweepD d now) k = some v := by
  induction d with
  | nil => simp [dlookup] at h
  | cons e t ih =>
    by_cases hk : e.1 = k
    · have hv : e.2 = v := by simpa [dlookup, hk] using h
      have hkeep : now < e.2.expireAt := by rw [hv]; exact hl
      simp [sweepD, List.filter_cons, hkeep, dlookup, hk, hv, hl]
    · have h' : dlookup t k = some v := by simpa [dlookup, hk] using h
      by_cases hkeep : now < e.2.expireAt
      · simpa [sweepD, List.filter_cons, hkeep, dlookup, hk] using ih h'
      · simpa [sweepD, List.filter_cons, hkeep] using ih h'

/-- Looking up the key just stored answers the stored entry. -/
theorem dlookup_dinsertD_self (d : List (String × DEntry)) (k : String) (v : DEntry) :
    dlookup (dinsertD d k v) k = some v := by
  induction d with
  | nil => simp [dinsertD, dlookup]
  | cons e t ih =>
    by_cases hk : e.1 = k
    · simp [dinsertD, hk, dlookup]
    · simp [dinsertD, hk, dlookup, ih]

/-- The first delivery of a fresh at-most-once request: the dispatcher misses the cache,
invokes the processor once, caches the encoded reply with a 60-second TTL, and sends it
unless the reply-loss draw eats it. -/
theorem serverStep_first {σ : Type} (handle : σ → Msg → σ × Nat × List Nat)
    (st0 : SrvState σ) (now : Nat) (peer : String) (raw : List Nat) (req : Msg)
    (dropRep : Bool) (hdec : decode raw = some req) (hver : req.version = 1)
    (hty : req.msgType = 1) (hflag : req.flags % 2 = 1)
    (hfresh : dlookup st0.dedup (mkKey peer req.requestId) = none) :
    serverStep handle st0 now peer raw false dropRep =
      ({ proc := (handle st0.proc req).1,
         dedup := dinsertD (sweepD st0.dedup now) (mkKey peer req.requestId)
           ⟨firstReplyBytes handle st0 req, now + 60⟩ },
       if dropRep then none else some (firstReplyBytes handle st0 req), true) := by
  have hmiss := dlookup_sweep_none st0.dedup now (mkKey peer req.requestId) hfresh
  simp [serverStep, hdec, hver, hty, hflag, hmiss, firstReplyBytes]

/-- A delivery that hits a live cache entry: the dispatcher replays the cached bytes
(unless the reply-loss draw eats them), does not invoke the processor, and only sweeps
its state. -/
theorem serverStep_replay {σ : Type} (handle : σ → Msg → σ × Nat × List Nat)
    (st : SrvState σ) (now : Nat) (peer : String) (raw : List Nat) (req : Msg)
    (dropRep : Bool) (v : DEntry) (hdec : decode raw = some req) (hver : req.version = 1)
    (hty : req.msgType = 1) (hflag : req.flags % 2 = 1)
    (hhit : dlookup st.dedup (mkKey peer req.requestId) = some v)
    (hlive : now < v.expireAt) :
    serverStep handle st now peer raw false dropRep =
      ({ st with dedup := sweepD st.dedup now },
       if dropRep then none else some v.bytes, false) := by
  have hh := dlookup_sweep_live st.dedup now (mkKey peer req.requestId) v hhit hlive
  simp [serverStep, hdec, hver, hty, hflag, hh]

/-- Every delivery after the first, while the cache entry lives, replays the same
cached bytes and never invokes the processor. -/
theorem runResends_replay {σ : Type} (handle : σ → Msg → σ × Nat × List Nat)
    (peer : String) (raw : List Nat) (req : Msg) (v : DEntry)
    (hdec : decode raw = some req) (hver : req.version = 1) (hty : req.msgType = 1)
    (hflag : req.flags % 2 = 1) :
    ∀ (steps : List (Nat × Bool)) (st : SrvState σ),
      dlookup st.dedup (mkKey peer req.requestId) = some v →
      (∀ s ∈ steps, s.1 < v.expireAt) →
      runResends handle st peer raw steps =
        steps.map (fun s => (if s.2 then none else some v.bytes, false)) := by
  intro steps
  induction steps with
  | nil => intro st _ _; rfl
  | cons s rest ih =>
    intro st hhit htime
    have hs : s.1 < v.expireAt := htime s (by simp)
    have hstep := serverStep_replay handle st s.1 peer raw req s.2 v hdec hver hty
      hflag hhit hs
    have hnext : dlookup (sweepD st.dedup s.1) (mkKey peer req.requestId) = some v :=
      dlookup_sweep_live st.dedup s.1 (mkKey peer req.requestId) v hhit hs
    simp only [runResends, hstep, List.map_cons]
    exact congrArg _ (ih { st with dedup := sweepD st.dedup s.1 } hnext
      (fun x hx => htime x (by simp [hx])))

/-- C1 (amended): take any `n ≥ 1` deliveries to the dispatcher of the same request
datagram from the same peer (a datagram eaten by the request-loss simulation never
arrived), with the at-most-once flag set, a requestId not yet in the cache, and every
redelivery within the 60-second TTL started by the first processing.  Then the
processor runs exactly once — at the first delivery — and every datagram the server
sends for this (peer, requestId), whether the first reply or a replay, consists of
exactly the reply bytes produced and cached at the first delivery; reply-loss draws can
only suppress a send, never alter it.  (The TTL qualification is necessary: once the
entry expires the sweep erases it and a later resend is processed afresh — see the
counterexample below.) -/
theorem dedup_at_most_once_replay {σ : Type} (handle : σ → Msg → σ × Nat × List Nat)
    (st0 : SrvState σ) (peer : String) (raw : List Nat) (req : Msg) (t1 : Nat)
    (d1 : Bool) (rest : List (Nat × Bool)) (hdec : decode raw = some req)
    (hver : req.version = 1) (hty : req.msgType = 1) (hflag : req.flags % 2 = 1)
    (hfresh : dlookup st0.dedup (mkKey peer req.requestId) = none)
    (htime : ∀ s ∈ rest, s.1 < t1 + 60) :
    runResends handle st0 peer raw ((t1, d1) :: rest) =
      ((if d1 then none else some (firstReplyBytes handle st0 req)), true) ::
        rest.map (fun s =>
          (if s.2 then none else some (firstReplyBytes handle st0 req), false)) := by
  have hstep := serverStep_first handle st0 t1 peer raw req d1 hdec hver hty hflag
    hfresh
  simp only [runResends, hstep]
  refine congrArg _ ?_
  exact runResends_replay handle peer raw req
    ⟨firstReplyBytes handle st0 req, t1 + 60⟩ hdec hver hty hflag rest
    { proc := (handle st0.proc req).1,
      dedup := dinsertD (sweepD st0.dedup t1) (mkKey peer req.requestId)
        ⟨firstReplyBytes handle st0 req, t1 + 60⟩ }
    (dlookup_dinsertD_self _ _ _) htime

/-- The concrete at-most-once request used by the C1 witness: flags bit 0 set,
requestId 9. -/
def reqAmo : Msg :=
  { magic := MAGICN, version := 1, msgType := 1, opCode := 6, flags := 1, status := 0,
    requestId := 9, bodyLen := 0, body := [] }

/-- A trivial concrete processor for the C1 witness: counts its invocations and replies
OK with an empty body. -/
def countingProc : Nat → Msg → Nat × Nat × List Nat := fun s _ => (s + 1, 0, [])

/-- Witness for C1: three deliveries of the same datagram at instants 5, 30, 50 — the
second reply lost to the loss draw — process once and replay the first reply bytes. -/
theorem dedup_at_most_once_replay_witness :
    decode (encode reqAmo) = some reqAmo ∧ reqAmo.version = 1 ∧ reqAmo.msgType = 1 ∧
      reqAmo.flags % 2 = 1 ∧
      dlookup (([] : List (String × DEntry))) (mkKey "1.2.3.4:5" reqAmo.requestId) =
        none ∧
      (∀ s ∈ [((30 : Nat), true), ((50 : Nat), false)], s.1 < 5 + 60) ∧
      runResends countingProc { proc := 0, dedup := [] } "1.2.3.4:5" (encode reqAmo)
          [(5, false), (30, true), (50, false)] =
        [(some (firstReplyBytes countingProc { proc := 0, dedup := [] } reqAmo), true),
         (none, false),
         (some (firstReplyBytes countingProc { proc := 0, dedup := [] } reqAmo), false)] :=
  ⟨by decide, by decide, by decide, by decide, rfl, by decide,
    dedup_at_most_once_replay countingProc { proc := 0, dedup := [] } "1.2.3.4:5"
      (encode reqAmo) reqAmo 5 false [(30, true), (50, false)] (by decide) (by decide)
      (by decide) (by decide) rfl (by decide)⟩

/-- A concrete processor whose reply depends on its state, as a DEPOSIT's new-balance
reply does: invocation number `s` answers OK with body `[s % 256]`. -/
def statefulProc : Nat → Msg → Nat × Nat × List Nat := fun s _ => (s + 1, 0, [s % 256])

/-- C1 counterexample: the claim as stated — over *any* resend sequence — is false.
Two deliveries of the same at-most-once datagram from the same peer, the first at
instant 5 and the resend at instant 65: the entry cached at the first processing
expires at 5 + 60 = 65, the per-iteration sweep (`expireAt <= now` erases) removes it
before the second lookup, the dedup misses, and the dispatcher invokes the processor a
*second* time — and the reply it sends for the resend is not byte-identical to the
first reply (the bodies differ).  Only resends within the 60-second TTL are replayed
from the cache. -/
theorem dedup_ttl_expiry_cex :
    runResends statefulProc { proc := 0, dedup := [] } "1.2.3.4:5" (encode reqAmo)
        [(5, false), (65, false)] =
      [(some (encode (mkReply reqAmo 0 [0])), true),
       (some (encode (mkReply reqAmo 0 [1])), true)] ∧
      encode (mkReply reqAmo 0 [0]) ≠ encode (mkReply reqAmo 0 [1]) := by
  refine ⟨by decide, by decide⟩

/-! ## Claim C6 — transfer conservation and binary64 rounding -/

/-- A value already in the binade `[2^52, 2^53)` is left in place by the normalisation
loop, whatever the fuel. -/
theorem normLoop_inBinade (f : Nat) (q : ℚ) (e : ℤ) (h1 : ¬ q < 2 ^ 52)
    (h2 : ¬ 2 ^ 53 ≤ q) : normLoop f q e = (q, e) := by
  cases f <;> simp [normLoop, h1, h2]

/-- For a value in `[2^52, 2^53)` the binary64 rounding is integer rounding, ties to
even. -/
theorem roundNE_inBinade (q : ℚ) (h1 : 2 ^ 52 ≤ q) (h2 : q < 2 ^ 53) :
    roundNE q = rint q := by
  have hq0 : ¬ q = 0 := by
    intro hc
    rw [hc] at h1
    norm_num at h1
  have hqn : ¬ q < 0 := by
    intro hc
    have : (0 : ℚ) < 2 ^ 52 := by norm_num
    linarith
  have hnl := normLoop_inBinade (q.num.natAbs + q.den + 120) q 0 (not_lt.mpr h1)
    (not_le.mpr h2)
  simp [roundNE, hq0, hqn, roundNEp, hnl]

/-- The exact value `2^53 - 3/2` lies halfway between consecutive binade-grid integers
(`2^53 - 2` and `2^53 - 1`, grid spacing 1 in `[2^52, 2^53)`); the tie goes to the even
`2^53 - 2`. -/
theorem rint_sub_cex : rint ((9007199254740991 : ℚ) - 1 / 2) = 9007199254740990 := by
  have hf : ⌊(9007199254740991 : ℚ) - 1 / 2⌋ = 9007199254740990 := by
    rw [Int.floor_eq_iff]
    constructor <;> norm_num
  simp only [rint, hf]
  norm_num

/-- The value `2^52 + 1/2` rounds down to `2^52`: a tie whose even neighbour is `2^52`. -/
theorem rint_add_cex : rint ((4503599627370496 : ℚ) + 1 / 2) = 4503599627370496 := by
  have hf : ⌊(4503599627370496 : ℚ) + 1 / 2⌋ = 4503599627370496 := by
    rw [Int.floor_eq_iff]
    constructor <;> norm_num
  simp only [rint, hf]
  norm_num

/-- The binary64 subtraction `(2^53 - 1) - 1/2` loses the half: the result is
`2^53 - 2`. -/
theorem fsub64_cex : fsub64 9007199254740991 (1 / 2) = 9007199254740990 := by
  unfold fsub64
  rw [roundNE_inBinade ((9007199254740991 : ℚ) - 1 / 2) (by norm_num) (by norm_num),
    rint_sub_cex]
  norm_num

/-- The binary64 addition `2^52 + 1/2` also loses the half: the result is `2^52`. -/
theorem fadd64_cex : fadd64 4503599627370496 (1 / 2) = 4503599627370496 := by
  unfold fadd64
  rw [roundNE_inBinade ((4503599627370496 : ℚ) + 1 / 2) (by norm_num) (by norm_num),
    rint_add_cex]
  norm_num

/-- The two-account bank of the C6 counterexample: balances `2^53 - 1` and `2^52`,
both CNY. -/
def bankC6 : BankSt :=
  { nextAccNo := 10003,
    accounts := [(10001, { accountNo := 10001, name := "a", password := "p",
                           currency := 0, balance := 9007199254740991,
                           closed := false }),
                 (10002, { accountNo := 10002, name := "b", password := "q",
                           currency := 0, balance := 4503599627370496,
                           closed := false })] }

/-- C6 counterexample: the TRANSFER of 1/2 from the account holding `2^53 - 1` to the
account holding `2^52` succeeds, but in binary64 arithmetic both the subtraction and
the addition round their half away: afterwards the balances hold `2^53 - 2` and `2^52`,
whose sum is one less than the sum of the balances before.  Conservation of the sum of
the two IEEE-754 double balances fails for a successful TRANSFER. -/
theorem transfer_double_conservation_cex :
    (transfer64 bankC6 "a" 10001 "p" 10002 0 (1 / 2)).2 =
        Except.ok (9007199254740990, 4503599627370496) ∧
      findAcc (transfer64 bankC6 "a" 10001 "p" 10002 0 (1 / 2)).1.accounts 10001 =
        some { accountNo := 10001, name := "a", password := "p", currency := 0,
               balance := 9007199254740990, closed := false } ∧
      findAcc (transfer64 bankC6 "a" 10001 "p" 10002 0 (1 / 2)).1.accounts 10002 =
        some { accountNo := 10002, name := "b", password := "q", currency := 0,
               balance := 4503599627370496, closed := false } ∧
      ((9007199254740990 : ℚ) + 4503599627370496 ≠
        9007199254740991 + 4503599627370496) := by
  have hrun : transfer64 bankC6 "a" 10001 "p" 10002 0 (1 / 2) =
      ({ bankC6 with accounts :=
          [(10001, { accountNo := 10001, name := "a", password := "p", currency := 0,
                     balance := 9007199254740990, closed := false }),
           (10002, { accountNo := 10002, name := "b", password := "q", currency := 0,
                     balance := 4503599627370496, closed := false })] },
       Except.ok (9007199254740990, 4503599627370496)) := by
    unfold transfer64 transferOps bankC6
    norm_num [findAcc, authMatch, putAccL, fsub64_cex, fadd64_cex]
  rw [hrun]
  refine ⟨rfl, by simp [findAcc], by simp [findAcc], by norm_num⟩

/-- Anatomy of a successful transfer: the guards passed, and the result state stores
the debited and credited records under the two (distinct) account numbers while the
reply carries the same two new balances. -/
theorem transferOps_ok_anatomy (sub add : ℚ → ℚ → ℚ) (b : BankSt) (name pw : String)
    (fa ta : Int) (cur : Nat) (amt : ℚ) (b' : BankSt) (outs : ℚ × ℚ)
    (h : transferOps sub add b name fa pw ta cur amt = (b', Except.ok outs)) :
    fa ≠ ta ∧
      ∃ af aT, findAcc b.accounts fa = some af ∧ findAcc b.accounts ta = some aT ∧
        outs = (sub af.balance amt, add aT.balance amt) ∧
        findAcc b'.accounts fa = some { af with balance := sub af.balance amt } ∧
        findAcc b'.accounts ta = some { aT with balance := add aT.balance amt } := by
  unfold transferOps at h
  repeat' split at h
  all_goals simp_all
  rename_i hft x1 af heqf x2 aT hcf heqt hct hauth hcur hamt hbal
  obtain ⟨hb', houts⟩ := h
  rw [← hb']
  constructor
  · simp only [findAcc_putAccL]
    rw [if_neg hft]
    simp
  · simp only [findAcc_putAccL]
    simp

/-- C6 (amended): the conservation the claim states holds of the *exact* (real-number)
balance arithmetic: for every successful TRANSFER, with the two balance updates taken
as exact subtraction and addition, the sum of the two accounts' stored balances after
the operation equals the sum before, and the two reply values sum to the same.  (With
the updates performed in IEEE-754 binary64, as the C++ executes them, the equality can
fail by rounding — see the counterexample.) -/
theorem transfer_exact_conservation (b : BankSt) (name pw : String) (fa ta : Int)
    (cur : Nat) (amt : ℚ) (b' : BankSt) (outs : ℚ × ℚ) (af aT af' aT' : Account)
    (hfa : findAcc b.accounts fa = some af) (hta : findAcc b.accounts ta = some aT)
    (hok : transferQ b name fa pw ta cur amt = (b', Except.ok outs))
    (hfa' : findAcc b'.accounts fa = some af')
    (hta' : findAcc b'.accounts ta = some aT') :
    af'.balance + aT'.balance = af.balance + aT.balance ∧
      outs.1 + outs.2 = af.balance + aT.balance := by
  obtain ⟨hft, af0, aT0, hfa0, hta0, houts, hfa0', hta0'⟩ :=
    transferOps_ok_anatomy (fun x y => x - y) (fun x y => x + y) b name pw fa ta cur
      amt b' outs hok
  have e0 : af0 = af := Option.some.inj (hfa0.symm.trans hfa)
  have e1 : aT0 = aT := Option.some.inj (hta0.symm.trans hta)
  subst e0
  subst e1
  have e2 : af' = { af0 with balance := af0.balance - amt } :=
    Option.some.inj (hfa'.symm.trans hfa0')
  have e3 : aT' = { aT0 with balance := aT0.balance + amt } :=
    Option.some.inj (hta'.symm.trans hta0')
  constructor
  · rw [e2, e3]
    ring
  · rw [houts]
    ring

/-- Witness for C6's amended statement: a transfer of 5 from balance 100 to balance 7
conserves the exact sum. -/
theorem transfer_exact_conservation_witness :
    ((100 : ℚ) - 5) + ((7 : ℚ) + 5) = 100 + 7 ∧
      ((100 : ℚ) - 5, (7 : ℚ) + 5).1 + ((100 : ℚ) - 5, (7 : ℚ) + 5).2 = 100 + 7 :=
  transfer_exact_conservation
    { nextAccNo := 10003,
      accounts := [(10001, { accountNo := 10001, name := "a", password := "p",
                             currency := 0, balance := 100, closed := false }),
                   (10002, { accountNo := 10002, name := "b", password := "q",
                             currency := 0, balance := 7, closed := false })] }
    "a" "p" 10001 10002 0 5 _ _
    { accountNo := 10001, name := "a", password := "p", currency := 0, balance := 100,
      closed := false }
    { accountNo := 10002, name := "b", password := "q", currency := 0, balance := 7,
      closed := false }
    { accountNo := 10001, name := "a", password := "p", currency := 0,
      balance := (100 : ℚ) - 5, closed := false }
    { accountNo := 10002, name := "b", password := "q", currency := 0,
      balance := (7 : ℚ) + 5, closed := false }
    rfl rfl rfl rfl rfl
